import Mathlib

/-!
Verification of the footprint-KPI analysis core of a manufacturing
root-cause-analysis dashboard (file `src/footprint_analyzer.py`).

Numeric values are modelled as exact rationals (`ℚ`); the Python source uses
floats, and the claims under study are exact arithmetic identities.
Footprints are ordered pairs of operation labels (strings), contracts are
case-identifier strings, exactly as in the source.
-/

/-- Colour palette for "degraded" (bad) excursions, four escalating severity
levels — `red_pallete` in the source (line 38, the source's spelling). -/
def red_pallete : List String := ["#F15A59", "#ED2B2A", "#D21312", "#850000"]

/-- Colour palette for "improved" (good) excursions, four escalating severity
levels — `green_pallete` in the source (line 39). -/
def green_pallete : List String := ["#D0E7D2", "#B0D9B1", "#79AC78", "#618264"]

/-- Embedding of `determine_color(val, upper_bound, lower_bound, sd, reverse)`
(source lines 71–123).  Returns a palette colour string, or the neutral
sentinel `"blue"` when the value lies inside `[lower_bound, upper_bound]`. -/
def determine_color (val upper_bound lower_bound sd : ℚ) (reverse : Bool) : String :=
  if reverse = true then
    if val > upper_bound then
      if val ≤ upper_bound + sd then green_pallete[0]!
      else if val ≤ upper_bound + 2 * sd then green_pallete[1]!
      else if val ≤ upper_bound + 3 * sd then green_pallete[2]!
      else green_pallete[3]!
    else if val < lower_bound then
      if val ≥ lower_bound - sd then red_pallete[0]!
      else if val ≥ lower_bound - 2 * sd then red_pallete[1]!
      else if val ≥ lower_bound - 3 * sd then red_pallete[2]!
      else red_pallete[3]!
    else "blue"
  else
    if val > upper_bound then
      if val ≤ upper_bound + sd then red_pallete[0]!
      else if val ≤ upper_bound + 2 * sd then red_pallete[1]!
      else if val ≤ upper_bound + 3 * sd then red_pallete[2]!
      else red_pallete[3]!
    else if val < lower_bound then
      if val ≥ lower_bound - sd then green_pallete[0]!
      else if val ≥ lower_bound - 2 * sd then green_pallete[1]!
      else if val ≥ lower_bound - 3 * sd then green_pallete[2]!
      else green_pallete[3]!
    else "blue"

/-- The bound construction at the classifier's call sites (source lines 61–64
in `calculate_outlier_footprints`, repeated at lines 153–156): for the
reversed KPI (`kpi == 'OEE'`) the bounds are `mean + sd/2` and `mean - sd`;
for all other KPIs they are `mean + sd` and `mean - sd/2`. -/
def classify (value baseline_mean spread : ℚ) (reversed : Bool) : String :=
  if reversed then
    determine_color value (baseline_mean + spread / 2) (baseline_mean - spread) spread true
  else
    determine_color value (baseline_mean + spread) (baseline_mean - spread / 2) spread false

/-- Severity level encoded by a colour string: palette index + 1, with the
neutral sentinel (and any non-palette string) at level 0. -/
def severity (color : String) : ℕ :=
  if color = "#F15A59" ∨ color = "#D0E7D2" then 1
  else if color = "#ED2B2A" ∨ color = "#B0D9B1" then 2
  else if color = "#D21312" ∨ color = "#79AC78" then 3
  else if color = "#850000" ∨ color = "#618264" then 4
  else 0

/-- Exchange of the red and green palettes at equal severity index; every
other string (in particular `"blue"`) is fixed. -/
def swap_pallete (color : String) : String :=
  if color = "#F15A59" then "#D0E7D2"
  else if color = "#ED2B2A" then "#B0D9B1"
  else if color = "#D21312" then "#79AC78"
  else if color = "#850000" then "#618264"
  else if color = "#D0E7D2" then "#F15A59"
  else if color = "#B0D9B1" then "#ED2B2A"
  else if color = "#79AC78" then "#D21312"
  else if color = "#618264" then "#850000"
  else color

/-- A footprint: an ordered pair (predecessor operation, successor operation),
both exact-match strings (spec section 3, source usage of pm4py dfg keys). -/
abbrev Footprint := String × String

/-- One row of the per-contract KPI table `kpi_data` built at source lines
255–266: the mean OEE, lead time (seconds), malfunction duration (seconds) and
rejected-materials count for one contract. -/
structure Kpi where
  oee : ℚ
  lead_time : ℚ
  malfunction_duration : ℚ
  rejection_count : ℚ
deriving DecidableEq, Repr

/-- Embedding of the `FootprintKpi` accumulator class (source lines 6–22):
running sums of the four KPIs plus the contributing-contract count. -/
structure FootprintKpi where
  oee : ℚ
  lead_time : ℚ
  malfunction_duration : ℚ
  rejection_count : ℚ
  count : ℕ
deriving DecidableEq, Repr

/-- The library-computed per-contract inputs to the accumulation loop (source
lines 252–272): `kpis` is the single row of the contract's `kpi_data` frame —
`none` when the contract has no rows in the data, in which case the source's
`.iloc[0]` access would raise an IndexError — and `fps` is the key list of the
contract's own discovered footprints (`footprints['dfg'].keys()`).  Both are
computed by pandas/pm4py from the same filtered frame; they are parameters
here because the discovery primitive is outside the verification scope. -/
structure ContractInfo where
  kpis : Option Kpi
  fps : List Footprint

/-- Lookup in an association list, the model of a Python dict keyed by
footprint (first match wins; keys are unique by construction). -/
def lookupFp {α : Type} : List (Footprint × α) → Footprint → Option α
  | [], _ => none
  | (k, v) :: rest, fp => if k = fp then some v else lookupFp rest fp

/-- In-place update of the value stored at an existing key. -/
def updateFp {α : Type} : List (Footprint × α) → Footprint → (α → α) → List (Footprint × α)
  | [], _, _ => []
  | (k, v) :: rest, fp, f => if k = fp then (k, f v) :: rest else (k, v) :: updateFp rest fp f

/-- The dict pattern of source lines 279–291: if the key is absent insert a
fresh entry (at the end, preserving insertion order), otherwise mutate the
stored value. -/
def upsertFp {α : Type} (m : List (Footprint × α)) (fp : Footprint) (init : α) (f : α → α) :
    List (Footprint × α) :=
  match lookupFp m fp with
  | none => m ++ [(fp, init)]
  | some _ => updateFp m fp f

/-- Fresh accumulator from a contract's KPI row (source line 280). -/
def initKpi (k : Kpi) : FootprintKpi :=
  ⟨k.oee, k.lead_time, k.malfunction_duration, k.rejection_count, 1⟩

/-- Fold one more contract's KPI row into an accumulator (source lines 282–286). -/
def addKpi (k : Kpi) (a : FootprintKpi) : FootprintKpi :=
  ⟨a.oee + k.oee, a.lead_time + k.lead_time, a.malfunction_duration + k.malfunction_duration,
    a.rejection_count + k.rejection_count, a.count + 1⟩

/-- The two mutable dicts of the accumulation loop: `footprint_kpis` and
`footprint_contracts` (source lines 246–247). -/
structure AccState where
  footprint_kpis : List (Footprint × FootprintKpi)
  footprint_contracts : List (Footprint × List String)

/-- One footprint's contribution step for one contract (source lines 279–291). -/
def contributeFp (st : AccState) (fp : Footprint) (k : Kpi) (contract : String) : AccState :=
  { footprint_kpis := upsertFp st.footprint_kpis fp (initKpi k) (addKpi k),
    footprint_contracts :=
      upsertFp st.footprint_contracts fp [contract] (fun l => l ++ [contract]) }

/-- The inner loop of source lines 277–291: iterate the baseline footprints;
for each one exhibited by the current contract, read the contract's KPI row
(`.iloc[0]` — an IndexError, modelled as `Except.error`, when the row table is
empty) and fold it into the accumulators. -/
def processContract (extracted : List Footprint) (info : ContractInfo) (contract : String)
    (st : AccState) : Except String AccState :=
  match extracted with
  | [] => .ok st
  | fp :: rest =>
    if fp ∈ info.fps then
      match info.kpis with
      | none => .error "IndexError: single positional indexer is out-of-bounds"
      | some k => processContract rest info contract (contributeFp st fp k contract)
    else processContract rest info contract st

/-- The outer loop of source lines 249–291: process every contract in order. -/
def processContracts (extracted : List Footprint) (data : String → ContractInfo) :
    List String → AccState → Except String AccState
  | [], st => .ok st
  | c :: rest, st =>
    match processContract extracted (data c) c st with
    | .error e => .error e
    | .ok stNext => processContracts extracted data rest stNext

/-- The `kpi_values` output dict of source line 334: parallel lists of reported
footprints, display labels, and the four finalized KPI means. -/
structure KpiValues where
  fp : List Footprint
  label : List String
  oee : List ℚ
  lead_time : List ℚ
  malfunction_duration : List ℚ
  rejected_materials : List ℚ
deriving DecidableEq, Repr

/-- The `diff_to_soll` output dict of source line 335: parallel lists of display
labels and the four deltas of footprint means against the baseline. -/
structure DiffToSoll where
  footprint : List String
  oee : List ℚ
  lead_time : List ℚ
  malfunction_duration : List ℚ
  rejected_materials : List ℚ
deriving DecidableEq, Repr

/-- Display label of a footprint (source line 324). -/
def fpLabel (fp : Footprint) : String := fp.1 ++ " -> " ++ fp.2

/-- The finalize loop of source lines 306–332: iterate the baseline footprints,
skip those absent from `footprint_kpis`, and for the rest append the four
means `sum / count` and their deltas against the population baseline
`kpi_data_mnummer`. -/
def finalize (kpis : List (Footprint × FootprintKpi)) (baseline : Kpi) :
    List Footprint → KpiValues × DiffToSoll
  | [] => (⟨[], [], [], [], [], []⟩, ⟨[], [], [], [], []⟩)
  | fp :: rest =>
    let r := finalize kpis baseline rest
    match lookupFp kpis fp with
    | none => r
    | some a =>
      let oee := a.oee / (a.count : ℚ)
      let lt := a.lead_time / (a.count : ℚ)
      let md := a.malfunction_duration / (a.count : ℚ)
      let rc := a.rejection_count / (a.count : ℚ)
      (⟨fp :: r.1.fp, fpLabel fp :: r.1.label, oee :: r.1.oee, lt :: r.1.lead_time,
          md :: r.1.malfunction_duration, rc :: r.1.rejected_materials⟩,
        ⟨fpLabel fp :: r.2.footprint, (oee - baseline.oee) :: r.2.oee,
          (lt - baseline.lead_time) :: r.2.lead_time,
          (md - baseline.malfunction_duration) :: r.2.malfunction_duration,
          (rc - baseline.rejection_count) :: r.2.rejected_materials⟩)

/-- Embedding of `analyze_footprints_by_kpi` (source lines 227–337).
`extracted` is the baseline footprint list computed over the whole population
(line 244, the keys of the discovery primitive's dfg — hence duplicate-free);
`data` gives each contract's library-computed KPI row and footprint set
(lines 252–272); `kpi_data_mnummer` is the whole-population baseline KPI
record.  Returns the `kpi_values` dict, the `footprint_contracts` dict and the
`diff_to_soll` dict of line 337, or the IndexError escaping the loop. -/
def analyze_footprints_by_kpi (extracted : List Footprint) (contracts : List String)
    (data : String → ContractInfo) (kpi_data_mnummer : Kpi) :
    Except String (KpiValues × List (Footprint × List String) × DiffToSoll) :=
  match processContracts extracted data contracts ⟨[], []⟩ with
  | .error e => .error e
  | .ok st =>
    let out := finalize st.footprint_kpis kpi_data_mnummer extracted
    .ok (out.1, st.footprint_contracts, out.2)

/-- The contracts contributing to a footprint: those in the analysis scope
whose own discovered footprint set contains it, in iteration order. -/
def contributorsOf (data : String → ContractInfo) (contracts : List String)
    (fp : Footprint) : List String :=
  contracts.filter (fun c => fp ∈ (data c).fps)

/-- A contributing contract's KPI row (total function; contributors of a
successful run always carry a row). -/
def kpiOf (data : String → ContractInfo) (c : String) : Kpi :=
  ((data c).kpis).getD ⟨0, 0, 0, 0⟩

/-- Sum of contributed per-contract OEE means. -/
def sumOee (data : String → ContractInfo) (cs : List String) : ℚ :=
  (cs.map (fun c => (kpiOf data c).oee)).sum

/-- Sum of contributed per-contract lead-time means. -/
def sumLeadTime (data : String → ContractInfo) (cs : List String) : ℚ :=
  (cs.map (fun c => (kpiOf data c).lead_time)).sum

/-- Sum of contributed per-contract malfunction-duration means. -/
def sumMalf (data : String → ContractInfo) (cs : List String) : ℚ :=
  (cs.map (fun c => (kpiOf data c).malfunction_duration)).sum

/-- Sum of contributed per-contract rejection-count means. -/
def sumRej (data : String → ContractInfo) (cs : List String) : ℚ :=
  (cs.map (fun c => (kpiOf data c).rejection_count)).sum

/-- Effect on an option-valued accumulator entry of folding in one more
contract, iterated over a contract list (proof-side description of the dict
upsert sequence). -/
def foldK (data : String → ContractInfo) (cs : List String) (o : Option FootprintKpi) :
    Option FootprintKpi :=
  cs.foldl (fun acc c => some (acc.elim (initKpi (kpiOf data c)) (addKpi (kpiOf data c)))) o

/-- Effect on an option-valued contract-list entry of appending one more
contract, iterated over a contract list. -/
def foldC (cs : List String) (o : Option (List String)) : Option (List String) :=
  cs.foldl (fun acc c => some (acc.elim [c] (fun l => l ++ [c]))) o

/-- The footprints that survive the finalize loop's skip test: baseline
footprints holding an accumulator entry, in baseline order (source lines
306–309). -/
def reportedFps (kpis : List (Footprint × FootprintKpi)) (ext : List Footprint) :
    List Footprint :=
  ext.filter (fun fp => (lookupFp kpis fp).isSome)

/-- The accumulator stored for a footprint (defaulting to an all-zero record,
only ever read at footprints that hold an entry). -/
def accAt (kpis : List (Footprint × FootprintKpi)) (fp : Footprint) : FootprintKpi :=
  (lookupFp kpis fp).getD ⟨0, 0, 0, 0, 0⟩

/-- Finalized OEE mean of a reported footprint (source line 312). -/
def meanOee (kpis : List (Footprint × FootprintKpi)) (fp : Footprint) : ℚ :=
  (accAt kpis fp).oee / ((accAt kpis fp).count : ℚ)

/-- Finalized lead-time mean of a reported footprint (source line 313). -/
def meanLeadTime (kpis : List (Footprint × FootprintKpi)) (fp : Footprint) : ℚ :=
  (accAt kpis fp).lead_time / ((accAt kpis fp).count : ℚ)

/-- Finalized malfunction-duration mean of a reported footprint (line 314). -/
def meanMalf (kpis : List (Footprint × FootprintKpi)) (fp : Footprint) : ℚ :=
  (accAt kpis fp).malfunction_duration / ((accAt kpis fp).count : ℚ)

/-- Finalized rejection-count mean of a reported footprint (line 315). -/
def meanRej (kpis : List (Footprint × FootprintKpi)) (fp : Footprint) : ℚ :=
  (accAt kpis fp).rejection_count / ((accAt kpis fp).count : ℚ)

/-- Concrete two-contract fixture for the witnesses: contracts "A" and "B"
both exhibit the footprint ("a", "b"); any other contract id has no rows. -/
def wData : String → ContractInfo := fun c =>
  if c = "A" then ⟨some ⟨1, 2, 3, 4⟩, [("a", "b")]⟩
  else if c = "B" then ⟨some ⟨3, 4, 5, 6⟩, [("a", "b")]⟩
  else ⟨none, []⟩

/-- Concrete baseline footprint list for the witnesses. -/
def wExt : List Footprint := [("a", "b")]

/-- Baseline footprint list with an extra footprint no contract exhibits. -/
def wExt2 : List Footprint := [("a", "b"), ("c", "d")]

/-- All-zero population baseline record for the witnesses. -/
def wBase : Kpi := ⟨0, 0, 0, 0⟩

/-- A pandas event row, modelled as a map from column name to the optionally
present value in that column (`none` is a null/NaN cell). -/
abbrev Row := String → Option ℚ

/-- Model of the pandas column rename at source line 192: the renamed frame
exposes the `time` column as 'time:timestamp', the `case_id` column as
'case:concept:name' and the `activity` column as 'concept:name'; the three
original names are no longer present (column names assumed distinct from the
three targets, as at every call site). -/
def rename_row (time case_id activity : String) (r : Row) : Row :=
  fun col =>
    if col = "time:timestamp" then r time
    else if col = "case:concept:name" then r case_id
    else if col = "concept:name" then r activity
    else if col = time ∨ col = case_id ∨ col = activity then none
    else r col

/-- Embedding of `extract_footprints(data, time, case_id, activity)` (source
lines 177–195): keeps the rows whose 'End Date Actual' column is present —
note: the hardcoded column name at line 191, not the `time` parameter —
renames the three event columns, and hands the result to the discovery
primitive (`pm4py.discover_footprints(temp)['dfg']`), which is outside the
verification scope and is therefore an opaque function parameter. -/
def extract_footprints (data : List Row) (time case_id activity : String)
    (discover : List Row → List Footprint) : List Footprint :=
  let temp := data.filter (fun r => (r "End Date Actual").isSome)
  let temp2 := temp.map (rename_row time case_id activity)
  discover temp2

@[simp] lemma red_pallete_ix0 : red_pallete[0]! = "#F15A59" := rfl

@[simp] lemma red_pallete_ix1 : red_pallete[1]! = "#ED2B2A" := rfl

@[simp] lemma red_pallete_ix2 : red_pallete[2]! = "#D21312" := rfl

@[simp] lemma red_pallete_ix3 : red_pallete[3]! = "#850000" := rfl

@[simp] lemma green_pallete_ix0 : green_pallete[0]! = "#D0E7D2" := rfl

@[simp] lemma green_pallete_ix1 : green_pallete[1]! = "#B0D9B1" := rfl

@[simp] lemma green_pallete_ix2 : green_pallete[2]! = "#79AC78" := rfl

@[simp] lemma green_pallete_ix3 : green_pallete[3]! = "#618264" := rfl

lemma severity_le_four (s : String) : severity s ≤ 4 := by
  unfold severity; split_ifs <;> norm_num

lemma dc_false_high {val upper_bound lower_bound sd : ℚ} (h : upper_bound < val) :
    determine_color val upper_bound lower_bound sd false =
      if val ≤ upper_bound + sd then "#F15A59"
      else if val ≤ upper_bound + 2 * sd then "#ED2B2A"
      else if val ≤ upper_bound + 3 * sd then "#D21312"
      else "#850000" := by
  simp only [determine_color]
  rw [if_neg (by simp), if_pos h]
  split_ifs <;> rfl

lemma dc_false_low {val upper_bound lower_bound sd : ℚ} (h1 : ¬ upper_bound < val)
    (h2 : val < lower_bound) :
    determine_color val upper_bound lower_bound sd false =
      if lower_bound - sd ≤ val then "#D0E7D2"
      else if lower_bound - 2 * sd ≤ val then "#B0D9B1"
      else if lower_bound - 3 * sd ≤ val then "#79AC78"
      else "#618264" := by
  simp only [determine_color]
  rw [if_neg (by simp), if_neg h1, if_pos h2]
  split_ifs <;> rfl

lemma dc_true_high {val upper_bound lower_bound sd : ℚ} (h : upper_bound < val) :
    determine_color val upper_bound lower_bound sd true =
      if val ≤ upper_bound + sd then "#D0E7D2"
      else if val ≤ upper_bound + 2 * sd then "#B0D9B1"
      else if val ≤ upper_bound + 3 * sd then "#79AC78"
      else "#618264" := by
  simp only [determine_color]
  rw [if_pos trivial, if_pos h]
  split_ifs <;> rfl

lemma dc_true_low {val upper_bound lower_bound sd : ℚ} (h1 : ¬ upper_bound < val)
    (h2 : val < lower_bound) :
    determine_color val upper_bound lower_bound sd true =
      if lower_bound - sd ≤ val then "#F15A59"
      else if lower_bound - 2 * sd ≤ val then "#ED2B2A"
      else if lower_bound - 3 * sd ≤ val then "#D21312"
      else "#850000" := by
  simp only [determine_color]
  rw [if_pos trivial, if_neg h1, if_pos h2]
  split_ifs <;> rfl

lemma dc_neutral {val upper_bound lower_bound sd : ℚ} {rev : Bool} (h1 : ¬ upper_bound < val)
    (h2 : ¬ val < lower_bound) :
    determine_color val upper_bound lower_bound sd rev = "blue" := by
  cases rev <;> simp only [determine_color]
  · rw [if_neg (by simp), if_neg h1, if_neg h2]
  · rw [if_pos trivial, if_neg h1, if_neg h2]

lemma sev_dc_high {val upper_bound lower_bound sd : ℚ} (rev : Bool) (h : upper_bound < val) :
    severity (determine_color val upper_bound lower_bound sd rev) =
      if val ≤ upper_bound + sd then 1
      else if val ≤ upper_bound + 2 * sd then 2
      else if val ≤ upper_bound + 3 * sd then 3
      else 4 := by
  cases rev
  · rw [dc_false_high h]; split_ifs <;> decide
  · rw [dc_true_high h]; split_ifs <;> decide

lemma sev_dc_low {val upper_bound lower_bound sd : ℚ} (rev : Bool) (h1 : ¬ upper_bound < val)
    (h2 : val < lower_bound) :
    severity (determine_color val upper_bound lower_bound sd rev) =
      if lower_bound - sd ≤ val then 1
      else if lower_bound - 2 * sd ≤ val then 2
      else if lower_bound - 3 * sd ≤ val then 3
      else 4 := by
  cases rev
  · rw [dc_false_low h1 h2]; split_ifs <;> decide
  · rw [dc_true_low h1 h2]; split_ifs <;> decide

lemma swap_pallete_eq_blue (s : String) : swap_pallete s = "blue" ↔ s = "blue" := by
  unfold swap_pallete
  split_ifs <;> first | (subst_vars; decide) | exact Iff.rfl

/-- C3: with `upper = mean + spread/2` and `lower = mean - spread` when the
direction flag is reversed, and `upper = mean + spread`, `lower = mean - spread/2`
otherwise (the bound construction at the classifier's call sites), the classifier
returns the neutral `"blue"` sentinel for every value strictly between `lower`
and `upper`. -/
theorem C3_neutral_band (value baseline_mean spread : ℚ) (reversed : Bool)
    (hlo : (if reversed then baseline_mean - spread else baseline_mean - spread / 2) < value)
    (hhi : value < (if reversed then baseline_mean + spread / 2 else baseline_mean + spread)) :
    classify value baseline_mean spread reversed = "blue" := by
  cases reversed <;> simp only [Bool.false_eq_true, if_false, if_true] at hlo hhi
  · show determine_color value (baseline_mean + spread) (baseline_mean - spread / 2) spread
        false = "blue"
    exact dc_neutral (not_lt.mpr (by linarith)) (not_lt.mpr (by linarith))
  · show determine_color value (baseline_mean + spread / 2) (baseline_mean - spread) spread
        true = "blue"
    exact dc_neutral (not_lt.mpr (by linarith)) (not_lt.mpr (by linarith))

theorem C3_witness :
    ((if false then (0 : ℚ) - 1 else 0 - 1 / 2) < 0) ∧
    ((0 : ℚ) < (if false then (0 : ℚ) + 1 / 2 else 0 + 1)) ∧
    classify 0 0 1 false = "blue" :=
  ⟨by norm_num, by norm_num, C3_neutral_band 0 0 1 false (by norm_num) (by norm_num)⟩

/-- C4: for positive spread and a value outside the neutral band, severity
escalates in four linear steps of one spread each — beyond `upper` (or below
`lower`) by up to one spread is severity 1, up to two spreads severity 2, up to
three severity 3, and anything further severity 4, the clamped maximum (no
severity above 4 exists); the stepping is identical on the high and low side
and for either direction flag. -/
theorem C4_severity_steps (val upper_bound lower_bound sd : ℚ) (rev : Bool)
    (hsd : 0 < sd) (hb : lower_bound ≤ upper_bound) :
    (upper_bound < val → val ≤ upper_bound + sd →
      severity (determine_color val upper_bound lower_bound sd rev) = 1) ∧
    (upper_bound + sd < val → val ≤ upper_bound + 2 * sd →
      severity (determine_color val upper_bound lower_bound sd rev) = 2) ∧
    (upper_bound + 2 * sd < val → val ≤ upper_bound + 3 * sd →
      severity (determine_color val upper_bound lower_bound sd rev) = 3) ∧
    (upper_bound + 3 * sd < val →
      severity (determine_color val upper_bound lower_bound sd rev) = 4) ∧
    (lower_bound - sd ≤ val → val < lower_bound →
      severity (determine_color val upper_bound lower_bound sd rev) = 1) ∧
    (lower_bound - 2 * sd ≤ val → val < lower_bound - sd →
      severity (determine_color val upper_bound lower_bound sd rev) = 2) ∧
    (lower_bound - 3 * sd ≤ val → val < lower_bound - 2 * sd →
      severity (determine_color val upper_bound lower_bound sd rev) = 3) ∧
    (val < lower_bound - 3 * sd →
      severity (determine_color val upper_bound lower_bound sd rev) = 4) ∧
    severity (determine_color val upper_bound lower_bound sd rev) ≤ 4 := by
  refine ⟨?_, ?_, ?_, ?_, ?_, ?_, ?_, ?_, severity_le_four _⟩
  · intro h1 h2
    rw [sev_dc_high rev h1, if_pos h2]
  · intro h1 h2
    rw [sev_dc_high rev (by linarith), if_neg (by linarith), if_pos h2]
  · intro h1 h2
    rw [sev_dc_high rev (by linarith), if_neg (by linarith), if_neg (by linarith), if_pos h2]
  · intro h1
    rw [sev_dc_high rev (by linarith), if_neg (by linarith), if_neg (by linarith),
      if_neg (by linarith)]
  · intro h1 h2
    rw [sev_dc_low rev (not_lt.mpr (by linarith)) h2, if_pos h1]
  · intro h1 h2
    rw [sev_dc_low rev (not_lt.mpr (by linarith)) (by linarith), if_neg (by linarith), if_pos h1]
  · intro h1 h2
    rw [sev_dc_low rev (not_lt.mpr (by linarith)) (by linarith), if_neg (by linarith),
      if_neg (by linarith), if_pos h1]
  · intro h1
    rw [sev_dc_low rev (not_lt.mpr (by linarith)) (by linarith), if_neg (by linarith),
      if_neg (by linarith), if_neg (by linarith)]

theorem C4_witness :
    (0 : ℚ) < 1 ∧ (-1 : ℚ) ≤ 1 ∧ severity (determine_color 2 1 (-1) 1 false) = 1 :=
  ⟨by norm_num, by norm_num,
    (C4_severity_steps 2 1 (-1) 1 false (by norm_num) (by norm_num)).1 (by norm_num) (by norm_num)⟩

/-- C10: `determine_color` with `reverse = true` returns exactly the result of
`determine_color` with `reverse = false` on the same arguments with the red and
green palettes exchanged at the same severity index, and the two calls return
the neutral `"blue"` sentinel on exactly the same inputs. -/
theorem C10_reverse_swaps_palettes (val upper_bound lower_bound sd : ℚ) :
    determine_color val upper_bound lower_bound sd true
      = swap_pallete (determine_color val upper_bound lower_bound sd false) ∧
    (determine_color val upper_bound lower_bound sd true = "blue" ↔
      determine_color val upper_bound lower_bound sd false = "blue") := by
  have key : determine_color val upper_bound lower_bound sd true
      = swap_pallete (determine_color val upper_bound lower_bound sd false) := by
    simp only [determine_color]
    rw [if_pos trivial, if_neg (by simp : ¬ (false = true))]
    split_ifs <;> rfl
  refine ⟨key, ?_⟩
  rw [key, swap_pallete_eq_blue]

/-- C6: a value exceeding the non-reversed upper bound `mean + spread` by
`ε > 0` and a value falling below the reversed lower bound `mean - spread` by
the same `ε` are classified at the same severity level (in fact they receive
the identical colour, both excursions being on the "degraded" side). -/
theorem C6_classifier_symmetry (baseline_mean spread eps : ℚ)
    (hsp : 0 < spread) (he : 0 < eps) :
    severity (classify (baseline_mean + spread + eps) baseline_mean spread false)
      = severity (classify (baseline_mean - spread - eps) baseline_mean spread true) ∧
    classify (baseline_mean + spread + eps) baseline_mean spread false
      = classify (baseline_mean - spread - eps) baseline_mean spread true := by
  have key : classify (baseline_mean + spread + eps) baseline_mean spread false
      = classify (baseline_mean - spread - eps) baseline_mean spread true := by
    show determine_color (baseline_mean + spread + eps) (baseline_mean + spread)
          (baseline_mean - spread / 2) spread false
        = determine_color (baseline_mean - spread - eps) (baseline_mean + spread / 2)
          (baseline_mean - spread) spread true
    rw [dc_false_high (by linarith), dc_true_low (not_lt.mpr (by linarith)) (by linarith)]
    split_ifs <;> first | rfl | (exfalso; linarith)
  exact ⟨by rw [key], key⟩

theorem C6_witness :
    (0 : ℚ) < 1 ∧ (0 : ℚ) < 1 ∧
    classify (0 + 1 + 1) 0 1 false = classify (0 - 1 - 1) 0 1 true :=
  ⟨by norm_num, by norm_num, (C6_classifier_symmetry 0 1 1 (by norm_num) (by norm_num)).2⟩

/-- C5 counterexample: with `spread = 0` the classifier's bounds collapse onto
the baseline mean; the value exactly at the bound (`value = mean = 0`) is
classified as the neutral `"blue"` sentinel (severity 0), refuting the claim
that any value exactly at the bound is classified at severity 1 at minimum. -/
theorem C5_counterexample :
    classify 0 0 0 false = "blue" ∧ severity (classify 0 0 0 false) = 0 := by
  have h : classify 0 0 0 false = "blue" := by norm_num [classify, determine_color]
  exact ⟨h, by rw [h]; decide⟩

/-- C5 (amended): when `spread = 0` the classifier completes without any
division (the embedding is a total function containing no division by the
spread); a value exactly at the collapsed bound is classified as neutral
`"blue"`, and any value strictly beyond the bound is classified at severity 1
at minimum — in fact at the clamped maximum severity 4. -/
theorem C5_amended_degenerate_spread (val baseline_mean : ℚ) (rev : Bool) :
    (val = baseline_mean → classify val baseline_mean 0 rev = "blue") ∧
    (val ≠ baseline_mean →
      1 ≤ severity (classify val baseline_mean 0 rev) ∧
      severity (classify val baseline_mean 0 rev) = 4) := by
  constructor
  · intro h
    subst h
    cases rev
    · show determine_color val (val + 0) (val - 0 / 2) 0 false = "blue"
      exact dc_neutral (not_lt.mpr (by linarith)) (not_lt.mpr (by linarith))
    · show determine_color val (val + 0 / 2) (val - 0) 0 true = "blue"
      exact dc_neutral (not_lt.mpr (by linarith)) (not_lt.mpr (by linarith))
  · intro h
    have h4 : severity (classify val baseline_mean 0 rev) = 4 := by
      rcases lt_or_gt_of_ne h with hlt | hgt
      · cases rev
        · show severity (determine_color val (baseline_mean + 0) (baseline_mean - 0 / 2) 0
              false) = 4
          rw [sev_dc_low false (not_lt.mpr (by linarith)) (by linarith),
            if_neg (by linarith), if_neg (by linarith), if_neg (by linarith)]
        · show severity (determine_color val (baseline_mean + 0 / 2) (baseline_mean - 0) 0
              true) = 4
          rw [sev_dc_low true (not_lt.mpr (by linarith)) (by linarith),
            if_neg (by linarith), if_neg (by linarith), if_neg (by linarith)]
      · cases rev
        · show severity (determine_color val (baseline_mean + 0) (baseline_mean - 0 / 2) 0
              false) = 4
          rw [sev_dc_high false (by linarith),
            if_neg (by linarith), if_neg (by linarith), if_neg (by linarith)]
        · show severity (determine_color val (baseline_mean + 0 / 2) (baseline_mean - 0) 0
              true) = 4
          rw [sev_dc_high true (by linarith),
            if_neg (by linarith), if_neg (by linarith), if_neg (by linarith)]
    exact ⟨by rw [h4]; norm_num, h4⟩

theorem C5_witness :
    (1 : ℚ) ≠ 0 ∧ severity (classify 1 0 0 false) = 4 :=
  ⟨by norm_num, ((C5_amended_degenerate_spread 1 0 false).2 (by norm_num)).2⟩

lemma lookupFp_append_none {α : Type} {m : List (Footprint × α)} {fp : Footprint} {v : α}
    (h : lookupFp m fp = none) : lookupFp (m ++ [(fp, v)]) fp = some v := by
  induction m with
  | nil => simp [lookupFp]
  | cons kv rest ih =>
    obtain ⟨k, w⟩ := kv
    simp only [lookupFp, List.cons_append] at h ⊢
    by_cases hk : k = fp
    · simp [hk] at h
    · rw [if_neg hk] at h ⊢
      exact ih h

lemma lookupFp_append_other {α : Type} {m : List (Footprint × α)} {fp fp' : Footprint} {v : α}
    (hne : fp' ≠ fp) : lookupFp (m ++ [(fp, v)]) fp' = lookupFp m fp' := by
  induction m with
  | nil =>
    simp only [List.nil_append, lookupFp]
    rw [if_neg (Ne.symm hne)]
  | cons kv rest ih =>
    obtain ⟨k, w⟩ := kv
    simp only [lookupFp, List.cons_append]
    by_cases hk : k = fp'
    · rw [if_pos hk, if_pos hk]
    · rw [if_neg hk, if_neg hk]
      exact ih

lemma lookupFp_updateFp_self {α : Type} {m : List (Footprint × α)} {fp : Footprint}
    {f : α → α} {w : α} (h : lookupFp m fp = some w) :
    lookupFp (updateFp m fp f) fp = some (f w) := by
  induction m with
  | nil => simp [lookupFp] at h
  | cons kv rest ih =>
    obtain ⟨k, v⟩ := kv
    simp only [lookupFp, updateFp] at h ⊢
    by_cases hk : k = fp
    · rw [if_pos hk] at h
      rw [if_pos hk]
      simp only [lookupFp, if_pos hk]
      rw [Option.some_inj] at h
      rw [h]
    · rw [if_neg hk] at h
      rw [if_neg hk]
      simp only [lookupFp, if_neg hk]
      exact ih h

lemma lookupFp_updateFp_other {α : Type} {m : List (Footprint × α)} {fp fp' : Footprint}
    {f : α → α} (hne : fp' ≠ fp) :
    lookupFp (updateFp m fp f) fp' = lookupFp m fp' := by
  induction m with
  | nil => rfl
  | cons kv rest ih =>
    obtain ⟨k, v⟩ := kv
    simp only [lookupFp, updateFp]
    by_cases hk : k = fp
    · subst hk
      rw [if_pos rfl]
      simp only [lookupFp]
      rw [if_neg (Ne.symm hne), if_neg (Ne.symm hne)]
    · rw [if_neg hk]
      simp only [lookupFp]
      by_cases hk2 : k = fp'
      · rw [if_pos hk2, if_pos hk2]
      · rw [if_neg hk2, if_neg hk2]
        exact ih

lemma lookupFp_upsert_self {α : Type} (m : List (Footprint × α)) (fp : Footprint)
    (init : α) (f : α → α) :
    lookupFp (upsertFp m fp init f) fp = some ((lookupFp m fp).elim init f) := by
  unfold upsertFp
  cases h : lookupFp m fp with
  | none => simpa using lookupFp_append_none h
  | some w => simpa using lookupFp_updateFp_self h

lemma lookupFp_upsert_other {α : Type} (m : List (Footprint × α)) {fp fp' : Footprint}
    (init : α) (f : α → α) (hne : fp' ≠ fp) :
    lookupFp (upsertFp m fp init f) fp' = lookupFp m fp' := by
  unfold upsertFp
  cases h : lookupFp m fp with
  | none => exact lookupFp_append_other hne
  | some w => exact lookupFp_updateFp_other hne

lemma contributeFp_kpis_self (st : AccState) (fp : Footprint) (k : Kpi) (c : String) :
    lookupFp (contributeFp st fp k c).footprint_kpis fp
      = some ((lookupFp st.footprint_kpis fp).elim (initKpi k) (addKpi k)) :=
  lookupFp_upsert_self _ _ _ _

lemma contributeFp_kpis_other (st : AccState) {fp fp' : Footprint} (k : Kpi) (c : String)
    (hne : fp' ≠ fp) :
    lookupFp (contributeFp st fp k c).footprint_kpis fp' = lookupFp st.footprint_kpis fp' :=
  lookupFp_upsert_other _ _ _ hne

lemma contributeFp_contracts_self (st : AccState) (fp : Footprint) (k : Kpi) (c : String) :
    lookupFp (contributeFp st fp k c).footprint_contracts fp
      = some ((lookupFp st.footprint_contracts fp).elim [c] (fun l => l ++ [c])) :=
  lookupFp_upsert_self _ _ _ _

lemma contributeFp_contracts_other (st : AccState) {fp fp' : Footprint} (k : Kpi) (c : String)
    (hne : fp' ≠ fp) :
    lookupFp (contributeFp st fp k c).footprint_contracts fp'
      = lookupFp st.footprint_contracts fp' :=
  lookupFp_upsert_other _ _ _ hne

lemma foldK_cons (data : String → ContractInfo) (c : String) (cs : List String)
    (o : Option FootprintKpi) :
    foldK data (c :: cs) o
      = foldK data cs (some (o.elim (initKpi (kpiOf data c)) (addKpi (kpiOf data c)))) := rfl

lemma foldC_cons (c : String) (cs : List String) (o : Option (List String)) :
    foldC (c :: cs) o = foldC cs (some (o.elim [c] (fun l => l ++ [c]))) := rfl

lemma contributorsOf_cons (data : String → ContractInfo) (c : String) (cs : List String)
    (fp : Footprint) :
    contributorsOf data (c :: cs) fp =
      if fp ∈ (data c).fps then c :: contributorsOf data cs fp
      else contributorsOf data cs fp := by
  by_cases h : fp ∈ (data c).fps
  · simp [contributorsOf, List.filter_cons, h]
  · simp [contributorsOf, List.filter_cons, h]

lemma processContract_fps_nil {info : ContractInfo} (h : info.fps = []) (c : String) :
    ∀ (ext : List Footprint) (st : AccState), processContract ext info c st = .ok st := by
  intro ext
  induction ext with
  | nil => intro st; rfl
  | cons fp rest ih =>
    intro st
    simp only [processContract, h, List.not_mem_nil, if_false]
    exact ih st

lemma processContract_lookup {info : ContractInfo} {k : Kpi} (hk : info.kpis = some k)
    (c : String) :
    ∀ (ext : List Footprint) (st : AccState), ext.Nodup →
      ∃ st2, processContract ext info c st = .ok st2 ∧
        ∀ fp : Footprint,
          lookupFp st2.footprint_kpis fp =
            (if fp ∈ ext ∧ fp ∈ info.fps then
              some ((lookupFp st.footprint_kpis fp).elim (initKpi k) (addKpi k))
            else lookupFp st.footprint_kpis fp) ∧
          lookupFp st2.footprint_contracts fp =
            (if fp ∈ ext ∧ fp ∈ info.fps then
              some ((lookupFp st.footprint_contracts fp).elim [c] (fun l => l ++ [c]))
            else lookupFp st.footprint_contracts fp) := by
  intro ext
  induction ext with
  | nil =>
    intro st _
    refine ⟨st, rfl, fun fp => ?_⟩
    constructor <;> rw [if_neg (by simp)]
  | cons fp0 rest ih =>
    intro st hnd
    rw [List.nodup_cons] at hnd
    obtain ⟨h0, hr⟩ := hnd
    by_cases hm : fp0 ∈ info.fps
    · have step : processContract (fp0 :: rest) info c st
          = processContract rest info c (contributeFp st fp0 k c) := by
        simp only [processContract, if_pos hm, hk]
      obtain ⟨st2, heq, hlook⟩ := ih (contributeFp st fp0 k c) hr
      refine ⟨st2, by rw [step]; exact heq, fun fp => ?_⟩
      obtain ⟨hl1, hl2⟩ := hlook fp
      by_cases hfp : fp = fp0
      · subst hfp
        constructor
        · rw [hl1, if_neg (fun hc => h0 hc.1), contributeFp_kpis_self,
            if_pos ⟨List.mem_cons_self _ _, hm⟩]
        · rw [hl2, if_neg (fun hc => h0 hc.1), contributeFp_contracts_self,
            if_pos ⟨List.mem_cons_self _ _, hm⟩]
      · have hcond : (fp ∈ fp0 :: rest ∧ fp ∈ info.fps) ↔ (fp ∈ rest ∧ fp ∈ info.fps) := by
          constructor
          · rintro ⟨hc1, hc2⟩
            exact ⟨(List.mem_cons.mp hc1).resolve_left hfp, hc2⟩
          · rintro ⟨hc1, hc2⟩
            exact ⟨List.mem_cons_of_mem _ hc1, hc2⟩
        constructor
        · rw [hl1, contributeFp_kpis_other st k c hfp]
          by_cases hin : fp ∈ rest ∧ fp ∈ info.fps
          · rw [if_pos hin, if_pos (hcond.mpr hin)]
          · rw [if_neg hin, if_neg (fun hc => hin (hcond.mp hc))]
        · rw [hl2, contributeFp_contracts_other st k c hfp]
          by_cases hin : fp ∈ rest ∧ fp ∈ info.fps
          · rw [if_pos hin, if_pos (hcond.mpr hin)]
          · rw [if_neg hin, if_neg (fun hc => hin (hcond.mp hc))]
    · have step : processContract (fp0 :: rest) info c st = processContract rest info c st := by
        simp only [processContract, if_neg hm]
      obtain ⟨st2, heq, hlook⟩ := ih st hr
      refine ⟨st2, by rw [step]; exact heq, fun fp => ?_⟩
      obtain ⟨hl1, hl2⟩ := hlook fp
      have hcond : (fp ∈ fp0 :: rest ∧ fp ∈ info.fps) ↔ (fp ∈ rest ∧ fp ∈ info.fps) := by
        constructor
        · rintro ⟨hc1, hc2⟩
          rcases List.mem_cons.mp hc1 with h | h
          · exact absurd hc2 (h ▸ hm)
          · exact ⟨h, hc2⟩
        · rintro ⟨hc1, hc2⟩
          exact ⟨List.mem_cons_of_mem _ hc1, hc2⟩
      constructor
      · rw [hl1]
        by_cases hin : fp ∈ rest ∧ fp ∈ info.fps
        · rw [if_pos hin, if_pos (hcond.mpr hin)]
        · rw [if_neg hin, if_neg (fun hc => hin (hcond.mp hc))]
      · rw [hl2]
        by_cases hin : fp ∈ rest ∧ fp ∈ info.fps
        · rw [if_pos hin, if_pos (hcond.mpr hin)]
        · rw [if_neg hin, if_neg (fun hc => hin (hcond.mp hc))]

lemma foldK_some (data : String → ContractInfo) :
    ∀ (cs : List String) (a : FootprintKpi),
      foldK data cs (some a)
        = some ⟨a.oee + sumOee data cs, a.lead_time + sumLeadTime data cs,
            a.malfunction_duration + sumMalf data cs,
            a.rejection_count + sumRej data cs, a.count + cs.length⟩ := by
  intro cs
  induction cs with
  | nil =>
    intro a
    simp [foldK, sumOee, sumLeadTime, sumMalf, sumRej]
  | cons c rest ih =>
    intro a
    rw [foldK_cons]
    simp only [Option.elim]
    rw [ih (addKpi (kpiOf data c) a)]
    simp only [addKpi, sumOee, sumLeadTime, sumMalf, sumRej, List.map_cons, List.sum_cons,
      List.length_cons]
    refine congrArg some ?_
    refine FootprintKpi.mk.injEq .. ▸ ?_
    exact ⟨by ring, by ring, by ring, by ring, by omega⟩

lemma foldK_none {data : String → ContractInfo} :
    ∀ {cs : List String}, cs ≠ [] →
      foldK data cs none
        = some ⟨sumOee data cs, sumLeadTime data cs, sumMalf data cs, sumRej data cs,
            cs.length⟩ := by
  intro cs h
  match cs with
  | [] => exact absurd rfl h
  | c :: rest =>
    rw [foldK_cons]
    simp only [Option.elim]
    rw [foldK_some data rest (initKpi (kpiOf data c))]
    simp only [initKpi, sumOee, sumLeadTime, sumMalf, sumRej, List.map_cons, List.sum_cons,
      List.length_cons, Nat.add_comm 1]

lemma foldC_some : ∀ (cs : List String) (l : List String), foldC cs (some l) = some (l ++ cs) := by
  intro cs
  induction cs with
  | nil => intro l; simp [foldC]
  | cons c rest ih =>
    intro l
    rw [foldC_cons]
    simp only [Option.elim]
    rw [ih (l ++ [c])]
    simp

lemma foldC_none : ∀ {cs : List String}, cs ≠ [] → foldC cs none = some cs := by
  intro cs h
  match cs with
  | [] => exact absurd rfl h
  | c :: rest =>
    rw [foldC_cons]
    simp only [Option.elim]
    rw [foldC_some rest [c]]
    simp

lemma processContracts_lookup (data : String → ContractInfo) :
    ∀ (cs : List String) (st : AccState),
      (∀ c ∈ cs, ((data c).kpis).isSome ∨ (data c).fps = []) →
      ∀ {ext : List Footprint}, ext.Nodup →
        ∃ st2, processContracts ext data cs st = .ok st2 ∧
          ∀ fp : Footprint,
            (fp ∈ ext →
              lookupFp st2.footprint_kpis fp
                = foldK data (contributorsOf data cs fp) (lookupFp st.footprint_kpis fp) ∧
              lookupFp st2.footprint_contracts fp
                = foldC (contributorsOf data cs fp) (lookupFp st.footprint_contracts fp)) ∧
            (fp ∉ ext →
              lookupFp st2.footprint_kpis fp = lookupFp st.footprint_kpis fp ∧
              lookupFp st2.footprint_contracts fp = lookupFp st.footprint_contracts fp) := by
  intro cs
  induction cs with
  | nil =>
    intro st _ ext hnd
    exact ⟨st, rfl, fun fp => ⟨fun _ => ⟨rfl, rfl⟩, fun _ => ⟨rfl, rfl⟩⟩⟩
  | cons c0 rest ih =>
    intro st hok ext hnd
    rcases hok c0 (List.mem_cons_self _ _) with hsome | hnil
    · obtain ⟨k, hk⟩ := Option.isSome_iff_exists.mp hsome
      obtain ⟨st1, heq1, hlook1⟩ := processContract_lookup hk c0 ext st hnd
      obtain ⟨st2, heq2, hlook2⟩ :=
        ih st1 (fun c hc => hok c (List.mem_cons_of_mem _ hc)) hnd
      refine ⟨st2, ?_, fun fp => ?_⟩
      · simp only [processContracts, heq1]
        exact heq2
      · obtain ⟨hk1, hk2⟩ := hlook1 fp
        obtain ⟨hin2, hout2⟩ := hlook2 fp
        constructor
        · intro hfp
          obtain ⟨ha, hb⟩ := hin2 hfp
          have hkk : kpiOf data c0 = k := by simp [kpiOf, hk]
          constructor
          · rw [ha, hk1, contributorsOf_cons]
            by_cases hm : fp ∈ (data c0).fps
            · rw [if_pos ⟨hfp, hm⟩, if_pos hm, foldK_cons, hkk]
            · rw [if_neg (fun hc => hm hc.2), if_neg hm]
          · rw [hb, hk2, contributorsOf_cons]
            by_cases hm : fp ∈ (data c0).fps
            · rw [if_pos ⟨hfp, hm⟩, if_pos hm, foldC_cons]
            · rw [if_neg (fun hc => hm hc.2), if_neg hm]
        · intro hfp
          obtain ⟨ha, hb⟩ := hout2 hfp
          exact ⟨by rw [ha, hk1, if_neg (fun hc => hfp hc.1)],
            by rw [hb, hk2, if_neg (fun hc => hfp hc.1)]⟩
    · have heq0 := processContract_fps_nil hnil c0 ext st
      obtain ⟨st2, heq2, hlook2⟩ :=
        ih st (fun c hc => hok c (List.mem_cons_of_mem _ hc)) hnd
      refine ⟨st2, ?_, fun fp => ?_⟩
      · simp only [processContracts, heq0]
        exact heq2
      · obtain ⟨hin2, hout2⟩ := hlook2 fp
        refine ⟨fun hfp => ?_, hout2⟩
        obtain ⟨ha, hb⟩ := hin2 hfp
        rw [contributorsOf_cons, if_neg (by simp [hnil])]
        exact ⟨ha, hb⟩

lemma finalize_eq (kpis : List (Footprint × FootprintKpi)) (base : Kpi)
    (ext : List Footprint) :
    finalize kpis base ext =
      (⟨reportedFps kpis ext, (reportedFps kpis ext).map fpLabel,
        (reportedFps kpis ext).map (meanOee kpis),
        (reportedFps kpis ext).map (meanLeadTime kpis),
        (reportedFps kpis ext).map (meanMalf kpis),
        (reportedFps kpis ext).map (meanRej kpis)⟩,
       ⟨(reportedFps kpis ext).map fpLabel,
        (reportedFps kpis ext).map (fun fp => meanOee kpis fp - base.oee),
        (reportedFps kpis ext).map (fun fp => meanLeadTime kpis fp - base.lead_time),
        (reportedFps kpis ext).map (fun fp => meanMalf kpis fp - base.malfunction_duration),
        (reportedFps kpis ext).map (fun fp => meanRej kpis fp - base.rejection_count)⟩) := by
  induction ext with
  | nil => rfl
  | cons fp rest ih =>
    simp only [finalize, ih]
    cases h : lookupFp kpis fp with
    | none =>
      simp [reportedFps, List.filter_cons, h]
    | some a =>
      simp [reportedFps, List.filter_cons, h, meanOee, meanLeadTime, meanMalf, meanRej, accAt]

lemma processContract_ok_lookup_notin {info : ContractInfo} {c : String} :
    ∀ {ext : List Footprint} {st st2 : AccState}, processContract ext info c st = .ok st2 →
      ∀ {fp : Footprint}, fp ∉ ext →
        lookupFp st2.footprint_kpis fp = lookupFp st.footprint_kpis fp ∧
        lookupFp st2.footprint_contracts fp = lookupFp st.footprint_contracts fp := by
  intro ext
  induction ext with
  | nil =>
    intro st st2 h fp _
    injection h with h
    subst h
    exact ⟨rfl, rfl⟩
  | cons fp0 rest ih =>
    intro st st2 h fp hfp
    have hfp0 : fp ≠ fp0 := fun he => hfp (he ▸ List.mem_cons_self _ _)
    have hfpr : fp ∉ rest := fun hr => hfp (List.mem_cons_of_mem _ hr)
    by_cases hm : fp0 ∈ info.fps
    · cases hki : info.kpis with
      | none =>
        simp only [processContract, if_pos hm, hki] at h
        exact absurd h (by simp)
      | some k =>
        simp only [processContract, if_pos hm, hki] at h
        obtain ⟨ha, hb⟩ := ih h hfpr
        rw [ha, hb, contributeFp_kpis_other st k c hfp0,
          contributeFp_contracts_other st k c hfp0]
        exact ⟨rfl, rfl⟩
    · simp only [processContract, if_neg hm] at h
      exact ih h hfpr

lemma processContracts_ok_lookup_notin {data : String → ContractInfo} {ext : List Footprint} :
    ∀ (cs : List String) {st st2 : AccState}, processContracts ext data cs st = .ok st2 →
      ∀ {fp : Footprint}, fp ∉ ext →
        lookupFp st2.footprint_kpis fp = lookupFp st.footprint_kpis fp ∧
        lookupFp st2.footprint_contracts fp = lookupFp st.footprint_contracts fp := by
  intro cs
  induction cs with
  | nil =>
    intro st st2 h fp _
    injection h with h
    subst h
    exact ⟨rfl, rfl⟩
  | cons c0 rest ih =>
    intro st st2 h fp hfp
    cases hpc : processContract ext (data c0) c0 st with
    | error e =>
      simp only [processContracts, hpc] at h
      exact absurd h (by simp)
    | ok st1 =>
      simp only [processContracts, hpc] at h
      obtain ⟨ha, hb⟩ := ih h hfp
      obtain ⟨hc, hd⟩ := processContract_ok_lookup_notin hpc hfp
      exact ⟨by rw [ha, hc], by rw [hb, hd]⟩

/-- C1: for every footprint in the finalized output of the accumulator, each
of the four reported KPI values equals the sum of the per-contract KPI means
accumulated for that footprint divided by the number of contributing
contracts, each reported delta equals that footprint mean minus the population
baseline mean, and for a footprint contributed to by exactly two contracts A
and B the finalized mean of each KPI equals (A's value + B's value) / 2. -/
theorem C1_finalized_means (ext : List Footprint) (contracts : List String)
    (data : String → ContractInfo) (base : Kpi)
    (hnd : ext.Nodup)
    (hok : ∀ c ∈ contracts, ((data c).kpis).isSome ∨ (data c).fps = []) :
    ∃ kv fc dts, analyze_footprints_by_kpi ext contracts data base = .ok (kv, fc, dts) ∧
      ∀ (i : ℕ) (fp : Footprint), kv.fp[i]? = some fp →
        contributorsOf data contracts fp ≠ [] ∧
        lookupFp fc fp = some (contributorsOf data contracts fp) ∧
        kv.oee[i]? = some (sumOee data (contributorsOf data contracts fp)
          / ((contributorsOf data contracts fp).length : ℚ)) ∧
        kv.lead_time[i]? = some (sumLeadTime data (contributorsOf data contracts fp)
          / ((contributorsOf data contracts fp).length : ℚ)) ∧
        kv.malfunction_duration[i]? = some (sumMalf data (contributorsOf data contracts fp)
          / ((contributorsOf data contracts fp).length : ℚ)) ∧
        kv.rejected_materials[i]? = some (sumRej data (contributorsOf data contracts fp)
          / ((contributorsOf data contracts fp).length : ℚ)) ∧
        dts.oee[i]? = some (sumOee data (contributorsOf data contracts fp)
          / ((contributorsOf data contracts fp).length : ℚ) - base.oee) ∧
        dts.lead_time[i]? = some (sumLeadTime data (contributorsOf data contracts fp)
          / ((contributorsOf data contracts fp).length : ℚ) - base.lead_time) ∧
        dts.malfunction_duration[i]? = some (sumMalf data (contributorsOf data contracts fp)
          / ((contributorsOf data contracts fp).length : ℚ) - base.malfunction_duration) ∧
        dts.rejected_materials[i]? = some (sumRej data (contributorsOf data contracts fp)
          / ((contributorsOf data contracts fp).length : ℚ) - base.rejection_count) ∧
        (∀ A B : String, contributorsOf data contracts fp = [A, B] →
          kv.oee[i]? = some (((kpiOf data A).oee + (kpiOf data B).oee) / 2) ∧
          kv.lead_time[i]? = some (((kpiOf data A).lead_time + (kpiOf data B).lead_time) / 2) ∧
          kv.malfunction_duration[i]?
            = some (((kpiOf data A).malfunction_duration
              + (kpiOf data B).malfunction_duration) / 2) ∧
          kv.rejected_materials[i]?
            = some (((kpiOf data A).rejection_count + (kpiOf data B).rejection_count) / 2)) := by
  obtain ⟨st2, heq, hlook⟩ := processContracts_lookup data contracts ⟨[], []⟩ hok hnd
  refine ⟨(finalize st2.footprint_kpis base ext).1, st2.footprint_contracts,
    (finalize st2.footprint_kpis base ext).2, by simp only [analyze_footprints_by_kpi, heq], ?_⟩
  intro i fp hi
  rw [finalize_eq] at hi
  simp only at hi
  have hmem : fp ∈ reportedFps st2.footprint_kpis ext := List.getElem?_mem hi
  have hmem2 := hmem
  simp only [reportedFps] at hmem2
  obtain ⟨hfpext, hsome⟩ := List.mem_filter.mp hmem2
  obtain ⟨ha, hb⟩ := (hlook fp).1 hfpext
  have ha2 : lookupFp st2.footprint_kpis fp
      = foldK data (contributorsOf data contracts fp) none := by simpa using ha
  have hb2 : lookupFp st2.footprint_contracts fp
      = foldC (contributorsOf data contracts fp) none := by simpa using hb
  have hcontr : contributorsOf data contracts fp ≠ [] := by
    intro hnil
    rw [hnil] at ha2
    rw [ha2] at hsome
    simp [foldK] at hsome
  have hacc : lookupFp st2.footprint_kpis fp
      = some ⟨sumOee data (contributorsOf data contracts fp),
          sumLeadTime data (contributorsOf data contracts fp),
          sumMalf data (contributorsOf data contracts fp),
          sumRej data (contributorsOf data contracts fp),
          (contributorsOf data contracts fp).length⟩ := by
    rw [ha2, foldK_none hcontr]
  have haccAt : accAt st2.footprint_kpis fp
      = ⟨sumOee data (contributorsOf data contracts fp),
          sumLeadTime data (contributorsOf data contracts fp),
          sumMalf data (contributorsOf data contracts fp),
          sumRej data (contributorsOf data contracts fp),
          (contributorsOf data contracts fp).length⟩ := by
    simp [accAt, hacc]
  have hoee : (finalize st2.footprint_kpis base ext).1.oee[i]?
      = some (sumOee data (contributorsOf data contracts fp)
        / ((contributorsOf data contracts fp).length : ℚ)) := by
    rw [finalize_eq]
    simp only [List.getElem?_map, hi, Option.map_some]
    simp [meanOee, haccAt]
  have hlt : (finalize st2.footprint_kpis base ext).1.lead_time[i]?
      = some (sumLeadTime data (contributorsOf data contracts fp)
        / ((contributorsOf data contracts fp).length : ℚ)) := by
    rw [finalize_eq]
    simp only [List.getElem?_map, hi, Option.map_some]
    simp [meanLeadTime, haccAt]
  have hmd : (finalize st2.footprint_kpis base ext).1.malfunction_duration[i]?
      = some (sumMalf data (contributorsOf data contracts fp)
        / ((contributorsOf data contracts fp).length : ℚ)) := by
    rw [finalize_eq]
    simp only [List.getElem?_map, hi, Option.map_some]
    simp [meanMalf, haccAt]
  have hrc : (finalize st2.footprint_kpis base ext).1.rejected_materials[i]?
      = some (sumRej data (contributorsOf data contracts fp)
        / ((contributorsOf data contracts fp).length : ℚ)) := by
    rw [finalize_eq]
    simp only [List.getElem?_map, hi, Option.map_some]
    simp [meanRej, haccAt]
  refine ⟨hcontr, by rw [hb2, foldC_none hcontr], hoee, hlt, hmd, hrc, ?_, ?_, ?_, ?_, ?_⟩
  · rw [finalize_eq]
    simp only [List.getElem?_map, hi, Option.map_some]
    simp [meanOee, haccAt]
  · rw [finalize_eq]
    simp only [List.getElem?_map, hi, Option.map_some]
    simp [meanLeadTime, haccAt]
  · rw [finalize_eq]
    simp only [List.getElem?_map, hi, Option.map_some]
    simp [meanMalf, haccAt]
  · rw [finalize_eq]
    simp only [List.getElem?_map, hi, Option.map_some]
    simp [meanRej, haccAt]
  · intro A B hab
    rw [hoee, hlt, hmd, hrc, hab]
    refine ⟨?_, ?_, ?_, ?_⟩ <;>
      · refine congrArg some ?_
        simp [sumOee, sumLeadTime, sumMalf, sumRej]
        try ring

/-- C2: a footprint absent from the whole-population baseline footprint set
never appears in any of the three outputs of the accumulator — not in the
reported footprint list (to which all KPI-mean and delta lists run parallel),
and not in the footprint-to-contracts map — no matter which contracts'
per-contract footprint sets contain it. -/
theorem C2_baseline_universe (ext : List Footprint) (contracts : List String)
    (data : String → ContractInfo) (base : Kpi) (fp : Footprint)
    (hfp : fp ∉ ext)
    (kv : KpiValues) (fc : List (Footprint × List String)) (dts : DiffToSoll)
    (hrun : analyze_footprints_by_kpi ext contracts data base = .ok (kv, fc, dts)) :
    fp ∉ kv.fp ∧ lookupFp fc fp = none ∧
    kv.label = kv.fp.map fpLabel ∧ dts.footprint = kv.fp.map fpLabel := by
  cases hpc : processContracts ext data contracts ⟨[], []⟩ with
  | error e =>
    simp only [analyze_footprints_by_kpi, hpc] at hrun
    exact absurd hrun (by simp)
  | ok st =>
    simp only [analyze_footprints_by_kpi, hpc, Except.ok.injEq, Prod.mk.injEq] at hrun
    obtain ⟨h1, h2, h3⟩ := hrun
    subst h1
    subst h2
    subst h3
    refine ⟨?_, ?_, ?_, ?_⟩
    · rw [finalize_eq]
      simp only
      intro hmem
      have hmem2 : fp ∈ ext ∧ (lookupFp st.footprint_kpis fp).isSome = true := by
        simpa [reportedFps, List.mem_filter] using hmem
      exact hfp hmem2.1
    · obtain ⟨_, hb⟩ := processContracts_ok_lookup_notin contracts hpc hfp
      exact hb
    · rw [finalize_eq]
    · rw [finalize_eq]

/-- C7: a baseline footprint that accumulated zero contributions from any
contract is silently absent from all finalized outputs: the run succeeds (no
error is raised by the omission), the footprint appears neither in the
reported footprint list — to which every KPI-mean and delta list runs strictly
parallel, so it is reported with no zero/null/default values either — nor in
the footprint-to-contracts map. -/
theorem C7_zero_contribution_omitted (ext : List Footprint) (contracts : List String)
    (data : String → ContractInfo) (base : Kpi) (fp : Footprint)
    (hnd : ext.Nodup)
    (hok : ∀ c ∈ contracts, ((data c).kpis).isSome ∨ (data c).fps = [])
    (hzero : ∀ c ∈ contracts, fp ∉ (data c).fps) :
    ∃ kv fc dts, analyze_footprints_by_kpi ext contracts data base = .ok (kv, fc, dts) ∧
      fp ∉ kv.fp ∧ lookupFp fc fp = none ∧
      kv.label = kv.fp.map fpLabel ∧ dts.footprint = kv.fp.map fpLabel ∧
      kv.oee.length = kv.fp.length ∧ kv.lead_time.length = kv.fp.length ∧
      kv.malfunction_duration.length = kv.fp.length ∧
      kv.rejected_materials.length = kv.fp.length ∧
      dts.oee.length = kv.fp.length ∧ dts.lead_time.length = kv.fp.length ∧
      dts.malfunction_duration.length = kv.fp.length ∧
      dts.rejected_materials.length = kv.fp.length := by
  obtain ⟨st2, heq, hlook⟩ := processContracts_lookup data contracts ⟨[], []⟩ hok hnd
  have hcontr : contributorsOf data contracts fp = [] := by
    simp only [contributorsOf]
    rw [List.filter_eq_nil_iff]
    intro c hc
    simpa using hzero c hc
  have hnone : lookupFp st2.footprint_kpis fp = none := by
    by_cases hfpe : fp ∈ ext
    · obtain ⟨ha, _⟩ := (hlook fp).1 hfpe
      simpa [hcontr, foldK] using ha
    · obtain ⟨ha, _⟩ := (hlook fp).2 hfpe
      simpa using ha
  have hcnone : lookupFp st2.footprint_contracts fp = none := by
    by_cases hfpe : fp ∈ ext
    · obtain ⟨_, hb⟩ := (hlook fp).1 hfpe
      simpa [hcontr, foldC] using hb
    · obtain ⟨_, hb⟩ := (hlook fp).2 hfpe
      simpa using hb
  refine ⟨(finalize st2.footprint_kpis base ext).1, st2.footprint_contracts,
    (finalize st2.footprint_kpis base ext).2,
    by simp only [analyze_footprints_by_kpi, heq], ?_, hcnone, ?_, ?_, ?_, ?_, ?_, ?_, ?_, ?_,
    ?_, ?_⟩
  · rw [finalize_eq]
    simp only
    intro hmem
    have hmem2 : fp ∈ ext ∧ (lookupFp st2.footprint_kpis fp).isSome = true := by
      simpa [reportedFps, List.mem_filter] using hmem
    rw [hnone] at hmem2
    simp at hmem2
  · rw [finalize_eq]
  · rw [finalize_eq]
  · rw [finalize_eq]
    simp
  · rw [finalize_eq]
    simp
  · rw [finalize_eq]
    simp
  · rw [finalize_eq]
    simp
  · rw [finalize_eq]
    simp
  · rw [finalize_eq]
    simp
  · rw [finalize_eq]
    simp
  · rw [finalize_eq]
    simp

lemma processContract_ok_of_some {info : ContractInfo} {k : Kpi} (hk : info.kpis = some k)
    (c : String) :
    ∀ (ext : List Footprint) (st : AccState), ∃ st1, processContract ext info c st = .ok st1 := by
  intro ext
  induction ext with
  | nil => intro st; exact ⟨st, rfl⟩
  | cons fp0 rest ih =>
    intro st
    by_cases hm : fp0 ∈ info.fps
    · obtain ⟨st1, h1⟩ := ih (contributeFp st fp0 k c)
      exact ⟨st1, by simp only [processContract, if_pos hm, hk]; exact h1⟩
    · obtain ⟨st1, h1⟩ := ih st
      exact ⟨st1, by simp only [processContract, if_neg hm]; exact h1⟩

lemma processContracts_ok_of_all_some (data : String → ContractInfo) :
    ∀ (cs : List String), (∀ c ∈ cs, ((data c).kpis).isSome) →
      ∀ (ext : List Footprint) (st : AccState),
        ∃ st2, processContracts ext data cs st = .ok st2 := by
  intro cs
  induction cs with
  | nil => intro _ ext st; exact ⟨st, rfl⟩
  | cons c0 rest ih =>
    intro h ext st
    obtain ⟨k, hk⟩ := Option.isSome_iff_exists.mp (h c0 (List.mem_cons_self _ _))
    obtain ⟨st1, h1⟩ := processContract_ok_of_some hk c0 ext st
    obtain ⟨st2, h2⟩ := ih (fun c hc => h c (List.mem_cons_of_mem _ hc)) ext st1
    exact ⟨st2, by simp only [processContracts, h1]; exact h2⟩

lemma processContracts_filter_eq (data : String → ContractInfo) :
    ∀ (cs : List String), (∀ c ∈ cs, (data c).kpis = none → (data c).fps = []) →
      ∀ (st : AccState) (ext : List Footprint),
        processContracts ext data cs st
          = processContracts ext data (cs.filter (fun c => ((data c).kpis).isSome)) st := by
  intro cs
  induction cs with
  | nil => intro _ st ext; rfl
  | cons c0 rest ih =>
    intro h st ext
    cases hki : (data c0).kpis with
    | some k =>
      have hfil : (c0 :: rest).filter (fun c => ((data c).kpis).isSome)
          = c0 :: rest.filter (fun c => ((data c).kpis).isSome) := by
        simp [List.filter_cons, hki]
      rw [hfil]
      cases hpc : processContract ext (data c0) c0 st with
      | error e => simp only [processContracts, hpc]
      | ok st1 =>
        simp only [processContracts, hpc]
        exact ih (fun c hc => h c (List.mem_cons_of_mem _ hc)) st1 ext
    | none =>
      have hfps := h c0 (List.mem_cons_self _ _) hki
      have hskip := processContract_fps_nil hfps c0 ext st
      have hfil : (c0 :: rest).filter (fun c => ((data c).kpis).isSome)
          = rest.filter (fun c => ((data c).kpis).isSome) := by
        simp [List.filter_cons, hki]
      rw [hfil]
      simp only [processContracts, hskip]
      exact ih (fun c hc => h c (List.mem_cons_of_mem _ hc)) st ext

/-- C9: a contract whose per-contract KPI table has no rows — which, both
tables being computed from the same filtered frame, forces its discovered
footprint set to be empty — is skipped for KPI attribution: the whole analysis
equals the analysis run on the remaining contracts alone, and it completes
without failing (no IndexError) and without contributing anything to any
footprint accumulator. -/
theorem C9_empty_contract_skipped (ext : List Footprint) (contracts : List String)
    (data : String → ContractInfo) (base : Kpi)
    (h : ∀ c ∈ contracts, (data c).kpis = none → (data c).fps = []) :
    analyze_footprints_by_kpi ext contracts data base
      = analyze_footprints_by_kpi ext
          (contracts.filter (fun c => ((data c).kpis).isSome)) data base ∧
    ∃ out, analyze_footprints_by_kpi ext contracts data base = .ok out := by
  have hfil := processContracts_filter_eq data contracts h ⟨[], []⟩ ext
  have hall : ∀ c ∈ contracts.filter (fun c => ((data c).kpis).isSome),
      ((data c).kpis).isSome := by
    intro c hc
    exact (List.mem_filter.mp hc).2
  obtain ⟨st2, heq⟩ :=
    processContracts_ok_of_all_some data _ hall ext ⟨[], []⟩
  constructor
  · simp only [analyze_footprints_by_kpi, hfil]
  · refine ⟨((finalize st2.footprint_kpis base ext).1, st2.footprint_contracts,
      (finalize st2.footprint_kpis base ext).2), ?_⟩
    simp only [analyze_footprints_by_kpi, hfil, heq]

theorem C1_witness :
    wExt.Nodup ∧
    (∀ c ∈ ["A", "B"], ((wData c).kpis).isSome ∨ (wData c).fps = []) ∧
    (∃ kv fc dts, analyze_footprints_by_kpi wExt ["A", "B"] wData wBase = .ok (kv, fc, dts) ∧
      ∀ (i : ℕ) (fp : Footprint), kv.fp[i]? = some fp →
        contributorsOf wData ["A", "B"] fp ≠ [] ∧
        lookupFp fc fp = some (contributorsOf wData ["A", "B"] fp) ∧
        kv.oee[i]? = some (sumOee wData (contributorsOf wData ["A", "B"] fp)
          / ((contributorsOf wData ["A", "B"] fp).length : ℚ)) ∧
        kv.lead_time[i]? = some (sumLeadTime wData (contributorsOf wData ["A", "B"] fp)
          / ((contributorsOf wData ["A", "B"] fp).length : ℚ)) ∧
        kv.malfunction_duration[i]? = some (sumMalf wData (contributorsOf wData ["A", "B"] fp)
          / ((contributorsOf wData ["A", "B"] fp).length : ℚ)) ∧
        kv.rejected_materials[i]? = some (sumRej wData (contributorsOf wData ["A", "B"] fp)
          / ((contributorsOf wData ["A", "B"] fp).length : ℚ)) ∧
        dts.oee[i]? = some (sumOee wData (contributorsOf wData ["A", "B"] fp)
          / ((contributorsOf wData ["A", "B"] fp).length : ℚ) - wBase.oee) ∧
        dts.lead_time[i]? = some (sumLeadTime wData (contributorsOf wData ["A", "B"] fp)
          / ((contributorsOf wData ["A", "B"] fp).length : ℚ) - wBase.lead_time) ∧
        dts.malfunction_duration[i]?
          = some (sumMalf wData (contributorsOf wData ["A", "B"] fp)
            / ((contributorsOf wData ["A", "B"] fp).length : ℚ) - wBase.malfunction_duration) ∧
        dts.rejected_materials[i]? = some (sumRej wData (contributorsOf wData ["A", "B"] fp)
          / ((contributorsOf wData ["A", "B"] fp).length : ℚ) - wBase.rejection_count) ∧
        (∀ A B : String, contributorsOf wData ["A", "B"] fp = [A, B] →
          kv.oee[i]? = some (((kpiOf wData A).oee + (kpiOf wData B).oee) / 2) ∧
          kv.lead_time[i]?
            = some (((kpiOf wData A).lead_time + (kpiOf wData B).lead_time) / 2) ∧
          kv.malfunction_duration[i]?
            = some (((kpiOf wData A).malfunction_duration
              + (kpiOf wData B).malfunction_duration) / 2) ∧
          kv.rejected_materials[i]?
            = some (((kpiOf wData A).rejection_count + (kpiOf wData B).rejection_count) / 2))) :=
  ⟨by decide, by decide,
    C1_finalized_means wExt ["A", "B"] wData wBase (by decide) (by decide)⟩

theorem C2_witness :
    (("x", "y") : Footprint) ∉ wExt ∧
    analyze_footprints_by_kpi wExt ["A"] wData wBase
      = .ok (⟨[("a", "b")], ["a -> b"], [1], [2], [3], [4]⟩,
        [(("a", "b"), ["A"])], ⟨["a -> b"], [1], [2], [3], [4]⟩) ∧
    (("x", "y") : Footprint) ∉ ([("a", "b")] : List Footprint) ∧
    lookupFp [(("a", "b"), ["A"])] ("x", "y") = none := by
  have hrun : analyze_footprints_by_kpi wExt ["A"] wData wBase
      = .ok (⟨[("a", "b")], ["a -> b"], [1], [2], [3], [4]⟩,
        [(("a", "b"), ["A"])], ⟨["a -> b"], [1], [2], [3], [4]⟩) := by
    simp only [analyze_footprints_by_kpi, processContracts, processContract, contributeFp,
      upsertFp, lookupFp, updateFp, initKpi, addKpi, finalize, fpLabel, wData, wExt, wBase]
    norm_num [lookupFp]
    decide
  obtain ⟨h1, h2, _, _⟩ := C2_baseline_universe wExt ["A"] wData wBase ("x", "y")
    (by decide) _ _ _ hrun
  exact ⟨by decide, hrun, h1, h2⟩

theorem C7_witness :
    wExt2.Nodup ∧
    (∀ c ∈ ["A", "B"], ((wData c).kpis).isSome ∨ (wData c).fps = []) ∧
    (∀ c ∈ ["A", "B"], (("c", "d") : Footprint) ∉ (wData c).fps) ∧
    (∃ kv fc dts,
      analyze_footprints_by_kpi wExt2 ["A", "B"] wData wBase = .ok (kv, fc, dts) ∧
      (("c", "d") : Footprint) ∉ kv.fp ∧ lookupFp fc ("c", "d") = none ∧
      kv.label = kv.fp.map fpLabel ∧ dts.footprint = kv.fp.map fpLabel ∧
      kv.oee.length = kv.fp.length ∧ kv.lead_time.length = kv.fp.length ∧
      kv.malfunction_duration.length = kv.fp.length ∧
      kv.rejected_materials.length = kv.fp.length ∧
      dts.oee.length = kv.fp.length ∧ dts.lead_time.length = kv.fp.length ∧
      dts.malfunction_duration.length = kv.fp.length ∧
      dts.rejected_materials.length = kv.fp.length) :=
  ⟨by decide, by decide, by decide,
    C7_zero_contribution_omitted wExt2 ["A", "B"] wData wBase ("c", "d")
      (by decide) (by decide) (by decide)⟩

theorem C9_witness :
    (∀ c ∈ ["A", "Z"], (wData c).kpis = none → (wData c).fps = []) ∧
    (analyze_footprints_by_kpi wExt ["A", "Z"] wData wBase
      = analyze_footprints_by_kpi wExt
          ((["A", "Z"] : List String).filter (fun c => ((wData c).kpis).isSome)) wData wBase ∧
      ∃ out, analyze_footprints_by_kpi wExt ["A", "Z"] wData wBase = .ok out) :=
  ⟨by decide, C9_empty_contract_skipped wExt ["A", "Z"] wData wBase (by decide)⟩

/-- C8 counterexample: with `time_field = "T"` (different from the hardcoded
'End Date Actual'), an event whose "T" value is null but whose
'End Date Actual' is present survives the filter and reaches the discovery
primitive — here a primitive that reports a footprint exactly when it receives
at least one event — so an event with a missing `time_field` value does
contribute to the returned footprint set, refuting the claim for arbitrary
`time_field`. -/
theorem C8_counterexample :
    ((fun col => if col = "End Date Actual" then some (0 : ℚ) else none) : Row) "T" = none ∧
    extract_footprints
        [fun col => if col = "End Date Actual" then some (0 : ℚ) else none] "T" "C" "A"
        (fun rows => match rows with | [] => [] | _ => [("x", "y")])
      = [("x", "y")] := by
  exact ⟨rfl, rfl⟩

/-- C8 (amended): `extract_footprints` filters on the hardcoded column
'End Date Actual' — not on the `time_field` argument — before invoking the
discovery primitive: events whose 'End Date Actual' value is null/missing
never reach the primitive, so removing them beforehand leaves the result
unchanged for every input and every discovery primitive.  Since every caller
passes `time_field = 'End Date Actual'`, at the call sites this is exactly the
removal of events with a missing end timestamp. -/
theorem C8_end_date_filter (data : List Row) (time case_id activity : String)
    (discover : List Row → List Footprint) :
    extract_footprints data time case_id activity discover
      = extract_footprints (data.filter (fun r => (r "End Date Actual").isSome))
          time case_id activity discover := by
  simp only [extract_footprints, List.filter_filter, Bool.and_self]

